import Mathlib

/-!
A verification development for the nxslib host-side NxScope client library.

Bytes are modelled as `Nat` (values `< 256` on the wire), byte strings as
`List Nat`, Python integers as `Int` where sign matters, and Python
exceptions as explicit `Except` results.  Each definition is a shallow
embedding of the correspondingly named Python function.
-/

namespace Nxslib

/-- Python exceptions that the modelled code can raise. -/
inductive PyError where
  | assertionError
  | structError
  | keyError
  | valueError
  | indexError
  | unicodeDecodeError
  deriving DecidableEq, Repr

/-- `EParseError` from `proto/iframe.py`: frame decode error kinds. -/
inductive EParseError where
  | noerr
  | err
  | hdr
  | foot
  deriving DecidableEq, Repr

/-- Frame id constants from `EParseId` in `proto/iframe.py`.
`UNDEF = 0`, `STREAM = 1`, `CMNINFO = 2`, `CHINFO = 3`, `ACK = 4`,
`START = 5`, `ENABLE = 6`, `DIV = 7`, `INVALID = 8`. -/
def idUNDEF : Nat := 0

def idSTREAM : Nat := 1

def idCMNINFO : Nat := 2

def idCHINFO : Nat := 3

def idACK : Nat := 4

def idSTART : Nat := 5

def idINVALID : Nat := 8

/-- The known (non-sentinel) frame ids of the protocol:
{STREAM, CMNINFO, CHINFO, ACK, START, ENABLE, DIV}. -/
def knownIds : List Nat := [1, 2, 3, 4, 5, 6, 7]

/-- `DParseHdr` from `proto/iframe.py` (defaults `fid = UNDEF`, `flen = 0`,
`err = NOERR`). -/
structure DParseHdr where
  fid : Nat := idUNDEF
  flen : Nat := 0
  err : EParseError := .noerr
  deriving DecidableEq, Repr

/-- `DParseFrame` from `proto/iframe.py` (defaults `fid = UNDEF`,
`data = b""`, `err = NOERR`). -/
structure DParseFrame where
  fid : Nat := idUNDEF
  data : List Nat := []
  err : EParseError := .noerr
  deriving DecidableEq, Repr

/-! ## CRC-16/XMODEM

`SerialFrame` uses `crcmod.predefined.mkCrcFun("xmodem")`: polynomial
`0x1021`, initial value `0`, no reflection, no xor-out, MSB-first.  The
library itself is outside the repository; the bit-level algorithm below is
the standard MSB-first formulation that `crcmod`'s "xmodem" entry computes.
-/

/-- One shift step of the MSB-first CRC-16/XMODEM register. -/
def crcStep (c : Nat) : Nat :=
  if c.testBit 15 then ((c * 2) ^^^ 0x1021) % 65536 else (c * 2) % 65536

/-- Feed one byte into the CRC-16/XMODEM register: xor it into the top
byte, then shift eight times. -/
def crcByte (c b : Nat) : Nat :=
  crcStep (crcStep (crcStep (crcStep (crcStep (crcStep (crcStep (crcStep
    (c ^^^ b * 256))))))))

/-- CRC-16/XMODEM of a byte string, initial value `0`. -/
def crc16 (data : List Nat) : Nat :=
  data.foldl crcByte 0

/-! ## Serial frame codec (`proto/serialframe.py`) -/

/-- `ESerialFrameHdr.SOF` from `proto/serialframe.py`. -/
def SOF : Nat := 0x55

/-- Header length (`ESerialFrameHdr.END`). -/
def hdr_len : Nat := 4

/-- Footer length (`ESerialFrameHdr.FOOT`). -/
def foot_len : Nat := 2

/-- The byte string built by `SerialFrame.frame_create` after its argument
check: `struct.pack("<BHB", SOF, frame_len, fid)` followed by the payload
and the big-endian CRC-16 (`struct.pack(">H", crc)`).  A `None` payload
encodes exactly like `b""`, so the payload is a plain list here. -/
def frame_create_bytes (fid : Nat) (data : List Nat) : List Nat :=
  let frame_len := 6 + data.length
  let msg := [SOF, frame_len % 256, frame_len / 256 % 256, fid % 256] ++ data
  let crc := crc16 msg
  msg ++ [crc / 256 % 256, crc % 256]

/-- `SerialFrame.frame_create` with its runtime checks: `assert fid <= 255`
raises `AssertionError` first; then `struct.pack("<BHB", ...)` raises
`struct.error` when the frame length does not fit into 16 bits.
(There is no check that `fid` is a known id.) -/
def frame_create (fid : Nat) (data : Option (List Nat)) : Except PyError (List Nat) :=
  if 255 < fid then .error .assertionError
  else if 65535 < 6 + (data.getD []).length then .error .structError
  else .ok (frame_create_bytes fid (data.getD []))

/-- Python slice end index: `s[a : e]` with a possibly negative `e`
(`e < 0` counts from the end of the string). -/
def pySliceEnd (len : Nat) (e : Int) : Nat :=
  if e < 0 then ((len : Int) + e).toNat else min e.toNat len

/-- `SerialFrame.hdr_decode`: needs at least 4 bytes, unpacks
`<BHB` (SOF byte, little-endian 16-bit length, id byte), rejects a wrong
SOF and an id that is not a valid `EParseId` member (valid: `0..8`). -/
def hdr_decode (data : List Nat) : DParseHdr :=
  if data.length < hdr_len then { err := .hdr }
  else if data.getD 0 0 ≠ SOF then { err := .hdr }
  else if idINVALID < data.getD 3 0 then { err := .hdr }
  else { fid := data.getD 3 0, flen := data.getD 1 0 + 256 * data.getD 2 0 }

/-- `SerialFrame.foot_validate`: the CRC-16 of the whole frame must be 0. -/
def foot_validate (data : List Nat) : Bool :=
  crc16 data == 0

/-- `SerialFrame.frame_decode`: header decode, CRC check over the first
`flen` bytes, then the payload slice `data[4 : flen - 2]`. -/
def frame_decode (data : List Nat) : DParseFrame :=
  if (hdr_decode data).err ≠ .noerr then { err := (hdr_decode data).err }
  else if foot_validate (data.take (hdr_decode data).flen) = false then
    { err := .foot }
  else
    { fid := (hdr_decode data).fid,
      data :=
        (data.take
          (pySliceEnd data.length (((hdr_decode data).flen : Int) - 2))).drop
          hdr_len }

/-! ## CRC facts -/

theorem xor_div_mul_256 (c : Nat) : c ^^^ c / 256 * 256 = c % 256 := by
  have h1 : c / 256 * 256 = (c >>> 8) <<< 8 := by
    rw [Nat.shiftRight_eq_div_pow, Nat.shiftLeft_eq]
  apply Nat.eq_of_testBit_eq
  intro i
  rw [Nat.testBit_xor, h1, Nat.testBit_shiftLeft,
    show (256 : Nat) = 2 ^ 8 from rfl, Nat.testBit_mod_two_pow]
  rcases lt_or_ge i 8 with h | h
  · simp [Nat.not_le.mpr h, h]
  · rw [Nat.testBit_shiftRight, show 8 + (i - 8) = i by omega]
    simp [h, Nat.not_lt.mpr h]

theorem crcStep_small (y : Nat) (h : y < 32768) : crcStep y = y * 2 := by
  have hb : y.testBit 15 = false :=
    Nat.testBit_lt_two_pow (by omega : y < 2 ^ 15)
  simp [crcStep, hb, Nat.mod_eq_of_lt (show y * 2 < 65536 by omega)]

theorem crcStep8_small (x : Nat) (h : x < 256) :
    crcStep (crcStep (crcStep (crcStep (crcStep (crcStep (crcStep
      (crcStep x))))))) = x * 256 := by
  rw [crcStep_small x (by omega), crcStep_small (x * 2) (by omega),
    crcStep_small (x * 2 * 2) (by omega),
    crcStep_small (x * 2 * 2 * 2) (by omega),
    crcStep_small (x * 2 * 2 * 2 * 2) (by omega),
    crcStep_small (x * 2 * 2 * 2 * 2 * 2) (by omega),
    crcStep_small (x * 2 * 2 * 2 * 2 * 2 * 2) (by omega),
    crcStep_small (x * 2 * 2 * 2 * 2 * 2 * 2 * 2) (by omega)]
  ring

theorem crcStep_lt (c : Nat) : crcStep c < 65536 := by
  unfold crcStep
  split <;> exact Nat.mod_lt _ (by norm_num)

theorem crcByte_lt (c b : Nat) : crcByte c b < 65536 := crcStep_lt _

theorem foldl_crcByte_lt (l : List Nat) (c : Nat) (h : c < 65536) :
    List.foldl crcByte c l < 65536 := by
  induction l generalizing c with
  | nil => exact h
  | cons x xs ih => exact ih _ (crcByte_lt c x)

theorem crc16_lt (data : List Nat) : crc16 data < 65536 :=
  foldl_crcByte_lt data 0 (by norm_num)

/-- Feeding the high CRC byte into the register cancels the register's
high byte and shifts the low byte up. -/
theorem crcByte_hi (c : Nat) : crcByte c (c / 256) = c % 256 * 256 := by
  unfold crcByte
  rw [xor_div_mul_256]
  exact crcStep8_small _ (Nat.mod_lt _ (by norm_num))

/-- Appending the big-endian CRC-16/XMODEM of a message to the message
makes the CRC of the whole string zero. -/
theorem crc_residue (msg : List Nat) :
    crc16 (msg ++ [crc16 msg / 256 % 256, crc16 msg % 256]) = 0 := by
  have hc : crc16 msg < 65536 := crc16_lt msg
  have h1 : crc16 msg / 256 % 256 = crc16 msg / 256 :=
    Nat.mod_eq_of_lt (by omega)
  have h2 : crc16 (msg ++ [crc16 msg / 256 % 256, crc16 msg % 256]) =
      crcByte (crcByte (crc16 msg) (crc16 msg / 256 % 256)) (crc16 msg % 256) := by
    simp [crc16, List.foldl_append, List.foldl]
  rw [h2, h1, crcByte_hi]
  unfold crcByte
  rw [Nat.xor_self]
  simpa using crcStep8_small 0 (by norm_num)

theorem hdr_decode_create (fid : Nat) (p : List Nat) (hf1 : 1 ≤ fid)
    (hf7 : fid ≤ 7) (hp : p.length ≤ 65529) (tail2 : List Nat) :
    hdr_decode (([SOF, (6 + p.length) % 256, (6 + p.length) / 256 % 256,
        fid % 256] ++ p) ++ tail2) =
      { fid := fid, flen := 6 + p.length, err := .noerr } := by
  have hfm : fid % 256 = fid := Nat.mod_eq_of_lt (by omega)
  have hco : ([SOF, (6 + p.length) % 256, (6 + p.length) / 256 % 256,
      fid % 256] ++ p) ++ tail2 =
      SOF :: (6 + p.length) % 256 :: (6 + p.length) / 256 % 256 ::
        fid % 256 :: (p ++ tail2) := by
    simp
  rw [hco]
  have hlen : (SOF :: (6 + p.length) % 256 :: (6 + p.length) / 256 % 256 ::
      fid % 256 :: (p ++ tail2)).length = 4 + (p ++ tail2).length := by
    simp
    omega
  unfold hdr_decode
  rw [if_neg (by rw [hlen]; unfold hdr_len; omega)]
  rw [if_neg (by simp [List.getD])]
  rw [if_neg (by simp [List.getD]; unfold idINVALID; omega)]
  have g1 : (SOF :: (6 + p.length) % 256 :: (6 + p.length) / 256 % 256 ::
      fid % 256 :: (p ++ tail2)).getD 1 0 = (6 + p.length) % 256 := rfl
  have g2 : (SOF :: (6 + p.length) % 256 :: (6 + p.length) / 256 % 256 ::
      fid % 256 :: (p ++ tail2)).getD 2 0 = (6 + p.length) / 256 % 256 := rfl
  have g3 : (SOF :: (6 + p.length) % 256 :: (6 + p.length) / 256 % 256 ::
      fid % 256 :: (p ++ tail2)).getD 3 0 = fid % 256 := rfl
  rw [g1, g2, g3, hfm]
  have hdiv : (6 + p.length) / 256 % 256 = (6 + p.length) / 256 :=
    Nat.mod_eq_of_lt (by omega)
  rw [hdiv, Nat.mod_add_div (6 + p.length) 256]

/-- C1: for every known frame id and every payload of at most 65529 bytes,
`frame_create` succeeds and `frame_decode` of the produced bytes recovers
exactly the id and the payload with no error. -/
theorem frame_roundtrip (fid : Nat) (hfid : fid ∈ knownIds) (p : List Nat)
    (hp : p.length ≤ 65529) (hbytes : ∀ b ∈ p, b < 256) :
    frame_create fid (some p) = Except.ok (frame_create_bytes fid p) ∧
    frame_decode (frame_create_bytes fid p) =
      { fid := fid, data := p, err := .noerr } := by
  have hf17 : 1 ≤ fid ∧ fid ≤ 7 := by
    simp [knownIds] at hfid
    rcases hfid with h | h | h | h | h | h | h <;> omega
  obtain ⟨hf1, hf7⟩ := hf17
  refine ⟨?_, ?_⟩
  · unfold frame_create
    rw [if_neg (by omega), if_neg (by simp only [Option.getD_some]; omega)]
    rfl
  · have hbe : frame_create_bytes fid p =
        (([SOF, (6 + p.length) % 256, (6 + p.length) / 256 % 256,
          fid % 256] ++ p) ++
          [crc16 ([SOF, (6 + p.length) % 256, (6 + p.length) / 256 % 256,
            fid % 256] ++ p) / 256 % 256,
           crc16 ([SOF, (6 + p.length) % 256, (6 + p.length) / 256 % 256,
            fid % 256] ++ p) % 256]) := rfl
    rw [hbe]
    set msg := [SOF, (6 + p.length) % 256, (6 + p.length) / 256 % 256,
      fid % 256] ++ p with hmsgdef
    set tail2 := [crc16 msg / 256 % 256, crc16 msg % 256] with htaildef
    have hmsglen : msg.length = 4 + p.length := by
      rw [hmsgdef]; simp; omega
    have hlen : (msg ++ tail2).length = 6 + p.length := by
      rw [htaildef]; simp [hmsglen]; omega
    have hhdr := hdr_decode_create fid p hf1 hf7 hp tail2
    rw [← hmsgdef] at hhdr
    unfold frame_decode
    rw [hhdr]
    rw [if_neg (by simp)]
    have htake : (msg ++ tail2).take (6 + p.length) = msg ++ tail2 := by
      rw [← hlen]; exact List.take_length _
    have hfoot : foot_validate ((msg ++ tail2).take
        ({ fid := fid, flen := 6 + p.length, err := .noerr } : DParseHdr).flen)
        = true := by
      show foot_validate ((msg ++ tail2).take (6 + p.length)) = true
      rw [htake, htaildef]
      simp [foot_validate, crc_residue msg]
    rw [if_neg (by rw [hfoot]; simp)]
    have hslice : pySliceEnd (msg ++ tail2).length
        ((({ fid := fid, flen := 6 + p.length, err := .noerr } :
          DParseHdr).flen : Int) - 2) = 4 + p.length := by
      show pySliceEnd (msg ++ tail2).length (((6 + p.length : Nat) : Int) - 2)
        = 4 + p.length
      rw [hlen]
      unfold pySliceEnd
      rw [if_neg (by omega)]
      have h1 : (((6 + p.length : Nat) : Int) - 2).toNat = 4 + p.length := by
        omega
      rw [h1]
      omega
    rw [hslice]
    have htake2 : (msg ++ tail2).take (4 + p.length) = msg :=
      List.take_left' hmsglen
    rw [htake2]
    have hdrop : msg.drop hdr_len = p := by
      rw [hmsgdef]
      rfl
    rw [hdrop]

/-- Witness for `frame_roundtrip` at `fid = START (5)`, payload `[1]`. -/
theorem frame_roundtrip_witness :
    frame_create 5 (some [1]) = Except.ok (frame_create_bytes 5 [1]) ∧
    frame_decode (frame_create_bytes 5 [1]) =
      { fid := 5, data := [1], err := .noerr } :=
  frame_roundtrip 5 (by decide) [1] (by decide) (by decide)

/-! ## Receive-thread routing (`comm.py`, `CommHandler._recv_thread`) -/

/-- `Parser.frame_is_stream`. -/
def frame_is_stream (f : DParseFrame) : Bool :=
  f.fid == idSTREAM

/-- `Parser.frame_is_ack`. -/
def frame_is_ack (f : DParseFrame) : Bool :=
  f.fid == idACK

/-- Destination of a decoded frame in `_recv_thread`. -/
inductive RouteDest where
  | streamQ
  | controlQ
  | dropped
  deriving DecidableEq, Repr

/-- `CommHandler._recv_thread` body for a successfully decoded frame:
stream frames go to the stream queue; otherwise ACK frames are dropped
while the device record is `None`; everything else goes to the control
queue.  `devPopulated` models `self.dev is not None`. -/
def recv_route (devPopulated : Bool) (frame : DParseFrame) : RouteDest :=
  if frame_is_stream frame then .streamQ
  else if devPopulated = false ∧ frame_is_ack frame then .dropped
  else .controlQ

/-- C4: the receive pipeline routes a decoded frame to the stream queue
iff its id is STREAM; drops it iff it is a non-stream ACK with an
unpopulated device record; and otherwise routes it to the control queue. -/
theorem recv_route_spec (d : Bool) (f : DParseFrame) :
    (recv_route d f = .streamQ ↔ f.fid = idSTREAM) ∧
    (recv_route d f = .dropped ↔
      (f.fid ≠ idSTREAM ∧ f.fid = idACK ∧ d = false)) ∧
    (recv_route d f = .controlQ ↔
      (f.fid ≠ idSTREAM ∧ ¬(f.fid = idACK ∧ d = false))) := by
  unfold recv_route frame_is_stream frame_is_ack
  by_cases h1 : f.fid = idSTREAM <;> by_cases h2 : f.fid = idACK <;>
    cases d <;> simp_all [idSTREAM, idACK]

/-! ## CMNINFO reply decoding (`proto/parse.py`) -/

/-- `ParseCmninfo` from `proto/iparse.py`. -/
structure ParseCmninfo where
  chmax : Nat
  flags : Nat
  rxpadding : Nat
  deriving DecidableEq, Repr

/-- `Parser.frame_cmninfo_decode`: `None` frames and non-CMNINFO frames
give `None`; otherwise `struct.unpack("BBB", frame.data[:3])`, which
raises `struct.error` when fewer than 3 bytes are available. -/
def frame_cmninfo_decode (frame : Option DParseFrame) :
    Except PyError (Option ParseCmninfo) :=
  match frame with
  | none => .ok none
  | some f =>
    if f.fid ≠ idCMNINFO then .ok none
    else if (f.data.take 3).length < 3 then .error .structError
    else .ok (some ⟨f.data.getD 0 0, f.data.getD 1 0, f.data.getD 2 0⟩)

/-- C5 counterexample: a CMNINFO frame with a 1-byte payload is not
dropped with a `None` result; the decoder raises `struct.error`, which
propagates to the caller. -/
theorem cmninfo_short_raises :
    frame_cmninfo_decode (some { fid := idCMNINFO, data := [1] }) =
      .error .structError ∧
    frame_cmninfo_decode (some { fid := idCMNINFO, data := [1] }) ≠
      .ok none := by
  refine ⟨rfl, ?_⟩
  intro h
  exact nomatch h

/-- C5 amended: for every CMNINFO frame whose payload is shorter than
3 bytes, `frame_cmninfo_decode` raises `struct.error` (there is no
ProtocolError handling; the exception propagates instead of the frame
being dropped). -/
theorem cmninfo_short_spec (f : DParseFrame) (hid : f.fid = idCMNINFO)
    (hlen : f.data.length < 3) :
    frame_cmninfo_decode (some f) = .error .structError := by
  show (if f.fid ≠ idCMNINFO then (Except.ok none : Except PyError (Option ParseCmninfo))
      else if (f.data.take 3).length < 3 then .error .structError
      else .ok (some ⟨f.data.getD 0 0, f.data.getD 1 0, f.data.getD 2 0⟩)) =
    .error .structError
  rw [if_neg (by simp [hid]), if_pos (by simp; omega)]

/-- Witness for `cmninfo_short_spec` on a 2-byte payload. -/
theorem cmninfo_short_spec_witness :
    frame_cmninfo_decode (some { fid := idCMNINFO, data := [7, 8] }) =
      .error .structError :=
  cmninfo_short_spec { fid := idCMNINFO, data := [7, 8] } rfl (by decide)

/-! ## `frame_create` argument checking (C6) -/

/-- C6 counterexample: id `8` (`INVALID`) is not in the known set, yet
`frame_create` succeeds on it — the only check is `assert fid <= 255`. -/
theorem frame_create_unknown_id_ok :
    8 ∉ knownIds ∧
    frame_create 8 (some []) = Except.ok (frame_create_bytes 8 []) :=
  ⟨by decide, rfl⟩

/-- C6 amended: `frame_create` fails (with `AssertionError`) exactly for
ids greater than 255; every id `≤ 255` — known or not — succeeds and
returns the framed bytes (for payloads that fit into the 16-bit length
field). -/
theorem frame_create_arg_check (fid : Nat) (data : Option (List Nat))
    (hlen : (data.getD []).length ≤ 65529) :
    (255 < fid → frame_create fid data = .error .assertionError) ∧
    (fid ≤ 255 →
      frame_create fid data = .ok (frame_create_bytes fid (data.getD []))) := by
  constructor
  · intro h
    unfold frame_create
    rw [if_pos h]
  · intro h
    unfold frame_create
    rw [if_neg (by omega), if_neg (by omega)]

/-- Witness for `frame_create_arg_check`: id 300 is rejected. -/
theorem frame_create_arg_check_witness :
    frame_create 300 (some []) = Except.error PyError.assertionError :=
  (frame_create_arg_check 300 (some []) (by decide)).1 (by decide)

/-! ## Device and channels (`dev.py`, `comm.py`) -/

/-- The relevant fields of `DDeviceChannelData` from `dev.py`.
`dtype` is the computed field `_type & 0x1F`.  The channel name is kept
as a list of Unicode code points. -/
structure DDeviceChannelData where
  chan : Nat
  typ : Nat
  vdim : Nat
  en : Bool
  div : Nat
  mlen : Nat
  name : List Nat
  deriving DecidableEq, Repr

/-- Computed field `dtype = _type & 0x1F` from
`DDeviceChannelData.__post_init__`. -/
def DDeviceChannelData.dtype (c : DDeviceChannelData) : Nat :=
  c.typ &&& 0x1F

/-- `Device` from `dev.py` (its constructor asserts
`len(channels) == chmax`; theorems carry that invariant explicitly). -/
structure Device where
  chmax : Nat
  flags : Nat
  rxpadding : Nat
  channels : List DDeviceChannelData
  deriving DecidableEq, Repr

/-- Python list read `l[i]` with negative-index wrap-around, returning
`none` where Python raises `IndexError`. -/
def pyListGet {α : Type} (l : List α) (i : Int) : Option α :=
  if 0 ≤ i then l[i.toNat]?
  else if -i ≤ (l.length : Int) then l[((l.length : Int) + i).toNat]?
  else none

/-- `Device.channel_get`: `self._channels[chid]` with `IndexError` caught
and turned into `None`. -/
def channel_get (dev : Device) (chid : Int) : Option DDeviceChannelData :=
  pyListGet dev.channels chid

/-- A one-channel example device. -/
def devA : Device :=
  { chmax := 1, flags := 0, rxpadding := 0,
    channels := [{ chan := 0, typ := 2, vdim := 1, en := false, div := 0,
                   mlen := 0, name := [] }] }

/-- C10 counterexample: on a device with `chmax = 1`, `channel_get (-2)`
returns `none` although `-2 < chmax`, so "returns none exactly when
`chid ≥ chmax`" fails. -/
theorem channel_get_neg_counterexample :
    channel_get devA (-2) = none ∧ ¬ ((devA.chmax : Int) ≤ -2) := by
  decide

/-- C10 amended: `channel_get chid` returns `none` exactly when
`chid ≥ chmax` or `chid < -chmax`; for `-chmax ≤ chid < 0` it returns the
channel at index `chmax + chid` (Python negative indexing). -/
theorem channel_get_spec (dev : Device)
    (h : dev.channels.length = dev.chmax) (chid : Int) :
    (channel_get dev chid = none ↔
      ((dev.chmax : Int) ≤ chid ∨ chid < -(dev.chmax : Int))) ∧
    (-(dev.chmax : Int) ≤ chid → chid < 0 →
      channel_get dev chid =
        dev.channels[((dev.chmax : Int) + chid).toNat]?) := by
  unfold channel_get pyListGet
  constructor
  · rcases le_or_lt 0 chid with hc | hc
    · rw [if_pos hc, List.getElem?_eq_none_iff]
      omega
    · rw [if_neg (by omega)]
      rcases le_or_lt (-chid) (dev.channels.length : Int) with hb | hb
      · rw [if_pos hb]
        have hlt : ((dev.channels.length : Int) + chid).toNat <
            dev.channels.length := by omega
        constructor
        · intro hnone
          rw [List.getElem?_eq_none_iff] at hnone
          omega
        · intro hor
          omega
      · rw [if_neg (by omega)]
        constructor
        · intro _
          omega
        · intro _
          rfl
  · intro h1 h2
    rw [if_neg (by omega), if_pos (by omega), h]

/-- Witness for `channel_get_spec` on the one-channel device at
`chid = -1`. -/
theorem channel_get_spec_witness :
    (channel_get devA (-1) = none ↔
      ((devA.chmax : Int) ≤ -1 ∨ (-1 : Int) < -(devA.chmax : Int))) ∧
    (-(devA.chmax : Int) ≤ -1 → (-1 : Int) < 0 →
      channel_get devA (-1) =
        devA.channels[((devA.chmax : Int) + -1).toNat]?) :=
  channel_get_spec devA rfl (-1)

/-! ## `ch_divider` (C7, `comm.py`) -/

/-- `DCommChannelsData` from `comm.py`. -/
structure DCommChannelsData where
  en_now : List Bool
  en_new : List Bool
  div_now : List Nat
  div_new : List Nat
  deriving DecidableEq, Repr

/-- Python list write `l[i] = v` with negative-index wrap-around,
returning `none` where Python raises `IndexError`. -/
def pyListSet {α : Type} (l : List α) (i : Int) (v : α) : Option (List α) :=
  if 0 ≤ i then
    if i < (l.length : Int) then some (l.set i.toNat v) else none
  else if -i ≤ (l.length : Int) then
    some (l.set ((l.length : Int) + i).toNat v)
  else none

/-- Sequential Python writes `for chan in chans: l[chan] = v`.  (On an
out-of-range index Python would leave the earlier writes in place and
raise; the claims only exercise in-range indices.) -/
def pyListSetEach (l : List Nat) (idxs : List Int) (v : Nat) :
    Option (List Nat) :=
  match idxs with
  | [] => some l
  | i :: rest =>
    match pyListSet l i v with
    | none => none
    | some l2 => pyListSetEach l2 rest v

/-- `CommHandler.ch_divider`: rejects `div` outside `[0, 255]` with
`ValueError` before touching any state; when the device lacks
`DIVIDER_SUPPORT` and `div > 0` it only logs an error and still performs
the write (`div_supported` is otherwise unused). -/
def ch_divider (div_supported : Bool) (ch : DCommChannelsData)
    (chans : List Int ⊕ Int) (div : Int) : Except PyError DCommChannelsData :=
  if div < 0 ∨ 255 < div then .error .valueError
  else
    match chans with
    | .inl l =>
      match pyListSetEach ch.div_new l div.toNat with
      | none => .error .indexError
      | some upd => .ok { ch with div_new := upd }
    | .inr c =>
      match pyListSet ch.div_new c div.toNat with
      | none => .error .indexError
      | some upd => .ok { ch with div_new := upd }

/-- C7: `ch_divider` fails with `ValueError` for `d < 0` or `d > 255`
(raising before any state change, so `div_new` is untouched); for
`0 ≤ d ≤ 255` and an in-range channel it succeeds and sets `div_new`;
and the result never depends on `DIVIDER_SUPPORT` — the write is accepted
even when dividers are unsupported. -/
theorem ch_divider_spec (dsup : Bool) (ch : DCommChannelsData) (c : Int)
    (d : Int) (hc : 0 ≤ c) (hlt : c < (ch.div_new.length : Int)) :
    ((d < 0 ∨ 255 < d) → ch_divider dsup ch (.inr c) d = .error .valueError) ∧
    (0 ≤ d → d ≤ 255 →
      ch_divider dsup ch (.inr c) d =
        .ok { ch with div_new := ch.div_new.set c.toNat d.toNat }) ∧
    (∀ dsup2 : Bool,
      ch_divider dsup ch (.inr c) d = ch_divider dsup2 ch (.inr c) d) := by
  refine ⟨?_, ?_, ?_⟩
  · intro h
    unfold ch_divider
    rw [if_pos h]
  · intro h0 h255
    have hset : pyListSet ch.div_new c d.toNat =
        some (ch.div_new.set c.toNat d.toNat) := by
      unfold pyListSet
      rw [if_pos hc, if_pos hlt]
    unfold ch_divider
    rw [if_neg (by omega)]
    show (match pyListSet ch.div_new c d.toNat with
      | none => (Except.error PyError.indexError : Except PyError DCommChannelsData)
      | some upd => Except.ok { ch with div_new := upd }) = _
    rw [hset]
  · intro dsup2
    rfl

/-- Example channel state for witnesses. -/
def chW : DCommChannelsData :=
  { en_now := [false], en_new := [false], div_now := [0], div_new := [0] }

/-- Witness for `ch_divider_spec` at divider 255 on channel 0. -/
theorem ch_divider_spec_witness :
    (((255 : Int) < 0 ∨ (255 : Int) > 255) →
      ch_divider false chW (.inr 0) 255 = .error .valueError) ∧
    ((0 : Int) ≤ 255 → (255 : Int) ≤ 255 →
      ch_divider false chW (.inr 0) 255 =
        .ok { chW with div_new := chW.div_new.set (0 : Int).toNat (255 : Int).toNat }) ∧
    (∀ dsup2 : Bool,
      ch_divider false chW (.inr 0) 255 = ch_divider dsup2 chW (.inr 0) 255) :=
  ch_divider_spec false chW 0 255 (by decide) (by decide)

/-! ## Set frames and configuration commit (C2, `proto/parse.py` and
`comm.py`) -/

/-- `DParseStreamData` from `proto/iparse.py`.  Sample values are kept as
the raw little-endian byte slices; the dispatcher treats them opaquely. -/
structure DParseStreamData where
  chan : Nat
  dtype : Nat
  vdim : Nat
  mlen : Nat
  data : List Nat
  meta : List Nat
  deriving DecidableEq, Repr

/-- `DNxscopeStream` from `nxscope.py`: the record the dispatcher builds
from each sample (`DNxscopeStream(val, meta)`). -/
structure DNxscopeStream where
  data : List Nat
  meta : List Nat
  deriving DecidableEq, Repr

/-- The grouping loop of `NxscopeHandler._stream_thread`:
`samples = [[] for _ in range(chmax)]`, then each decoded sample is
appended to its channel's bucket when `ch_is_enabled(chan)` — that is,
`en_now[chan]` — holds. -/
def stream_group (chmax : Nat) (en_now : List Bool)
    (stream : List DParseStreamData) : List (List DNxscopeStream) :=
  stream.foldl
    (fun acc s =>
      if en_now.getD s.chan false = true then
        acc.set s.chan (acc.getD s.chan [] ++ [⟨s.data, s.meta⟩])
      else acc)
    (List.replicate chmax [])

/-- The `put` calls of `_stream_thread` for one decoded stream frame:
for every channel of `range(chmax)` with a non-empty bucket, one put per
subscriber queue of that channel.  A queue is identified by its channel
and its position in `sub_q[chan]`; the put carries the whole batch. -/
def stream_thread_puts (chmax : Nat) (en_now : List Bool)
    (sub_q : List (List Nat)) (stream : List DParseStreamData) :
    List ((Nat × Nat) × List DNxscopeStream) :=
  (List.range chmax).flatMap (fun chan =>
    if (stream_group chmax en_now stream).getD chan [] ≠ [] then
      (List.range ((sub_q.getD chan []).length)).map
        (fun qi => ((chan, qi), (stream_group chmax en_now stream).getD chan []))
    else [])

theorem foldGroup_getD (en_now : List Bool) (stream : List DParseStreamData)
    (acc : List (List DNxscopeStream)) (c : Nat) (hc : c < acc.length)
    (hchan : ∀ s ∈ stream, s.chan < acc.length) :
    (stream.foldl
      (fun a s =>
        if en_now.getD s.chan false = true then
          a.set s.chan (a.getD s.chan [] ++ [⟨s.data, s.meta⟩])
        else a) acc).getD c [] =
      acc.getD c [] ++
        (if en_now.getD c false = true then
          (stream.filter (fun s => s.chan == c)).map
            (fun s => (⟨s.data, s.meta⟩ : DNxscopeStream))
        else []) := by
  induction stream generalizing acc with
  | nil => cases hen : en_now.getD c false <;> simp [hen]
  | cons s rest ih =>
    rw [List.foldl_cons]
    have hsr : ∀ t ∈ rest, t.chan < acc.length := fun t ht =>
      hchan t (List.mem_cons_of_mem _ ht)
    have hs : s.chan < acc.length := hchan s (List.mem_cons_self s rest)
    by_cases hen : en_now.getD s.chan false = true
    · rw [if_pos hen]
      have hlen2 :
          (acc.set s.chan (acc.getD s.chan [] ++ [⟨s.data, s.meta⟩])).length =
            acc.length := List.length_set acc _ _
      rw [ih _ (by rw [hlen2]; exact hc) (by rw [hlen2]; exact hsr)]
      by_cases hc2 : s.chan = c
      · subst hc2
        have hset :
            (acc.set s.chan
              (acc.getD s.chan [] ++ [⟨s.data, s.meta⟩])).getD s.chan [] =
              acc.getD s.chan [] ++ [⟨s.data, s.meta⟩] := by
          rw [List.getD_eq_getElem?_getD, List.getElem?_set_eq hs]
          rfl
        rw [hset, if_pos hen,
          List.filter_cons_of_pos (by simp), List.map_cons, if_pos hen,
          List.append_assoc]
        rfl
      · have hset :
            (acc.set s.chan
              (acc.getD s.chan [] ++ [⟨s.data, s.meta⟩])).getD c [] =
              acc.getD c [] := by
          rw [List.getD_eq_getElem?_getD, List.getElem?_set_ne hc2,
            ← List.getD_eq_getElem?_getD]
        rw [hset, List.filter_cons_of_neg (by simp [hc2])]
    · rw [if_neg hen, ih acc hc hsr]
      by_cases hc2 : s.chan = c
      · subst hc2
        rw [if_neg hen, if_neg hen]
      · rw [List.filter_cons_of_neg (by simp [hc2])]

theorem stream_group_getD (chmax : Nat) (en_now : List Bool)
    (stream : List DParseStreamData) (c : Nat) (hc : c < chmax)
    (hchan : ∀ s ∈ stream, s.chan < chmax) :
    (stream_group chmax en_now stream).getD c [] =
      if en_now.getD c false = true then
        (stream.filter (fun s => s.chan == c)).map
          (fun s => (⟨s.data, s.meta⟩ : DNxscopeStream))
      else [] := by
  unfold stream_group
  rw [foldGroup_getD en_now stream _ c
    (by rw [List.length_replicate]; exact hc)
    (by rw [List.length_replicate]; exact hchan)]
  rw [List.getD_eq_getElem?_getD, List.getElem?_replicate, if_pos hc]
  rfl

theorem range_filter_eq (n k : Nat) :
    (List.range n).filter (fun x => decide (x = k)) =
      if k < n then [k] else [] := by
  induction n with
  | zero => simp
  | succ n ih =>
    rw [List.range_succ, List.filter_append, ih]
    by_cases h1 : k < n
    · rw [if_pos h1, if_pos (by omega),
        List.filter_cons_of_neg (by simp; omega), List.filter_nil,
        List.append_nil]
    · by_cases h2 : k = n
      · subst h2
        rw [if_neg h1, if_pos (by omega), List.nil_append,
          List.filter_cons_of_pos (by simp), List.filter_nil]
      · rw [if_neg h1, if_neg (by omega), List.nil_append,
          List.filter_cons_of_neg (by simp; omega), List.filter_nil]

theorem filter_key_map (chan c qi nq : Nat) (b : List DNxscopeStream) :
    ((List.range nq).map (fun j => ((chan, j), b))).filter
      (fun x => decide (x.1 = (c, qi))) =
      if chan = c ∧ qi < nq then [((c, qi), b)] else [] := by
  rw [List.map_filter]
  by_cases hch : chan = c
  · subst hch
    have hp : ((fun x => decide (x.1 = (chan, qi))) ∘
        (fun j => ((chan, j), b))) = fun j => decide (j = qi) := by
      funext j
      simp [Prod.ext_iff]
    rw [hp, range_filter_eq]
    by_cases hq : qi < nq
    · rw [if_pos hq, if_pos ⟨rfl, hq⟩]
      rfl
    · rw [if_neg hq, if_neg (by simp [hq])]
      rfl
  · have hp : ((fun x => decide (x.1 = (c, qi))) ∘
        (fun j => ((chan, j), b))) = fun _ => false := by
      funext j
      simp [Prod.ext_iff, hch]
    rw [hp, if_neg (by simp [hch])]
    simp

theorem flatMap_single {β : Type} (n c : Nat) (hc : c < n)
    (h : Nat → List β) (hz : ∀ j, j ≠ c → h j = []) :
    (List.range n).flatMap h = h c := by
  induction n with
  | zero => omega
  | succ n ih =>
    rw [List.range_succ, List.flatMap_append]
    by_cases hcn : c = n
    · subst hcn
      have hnil : (List.range c).flatMap h = [] := by
        rw [List.flatMap_eq_nil_iff]
        intro a ha
        exact hz a (by have := List.mem_range.mp ha; omega)
      rw [hnil, List.nil_append]
      simp
    · rw [ih (by omega)]
      simp [List.flatMap_cons, hz n (by omega)]

/-- C3: for one decoded stream frame, every subscriber queue `(c, qi)` of
an enabled channel `c` that has samples in the frame receives exactly one
put, whose batch is exactly the frame's samples for `c` in arrival
order; queues of a disabled channel receive nothing from that frame. -/
theorem stream_fanout (chmax : Nat) (en_now : List Bool)
    (sub_q : List (List Nat)) (stream : List DParseStreamData)
    (hchan : ∀ s ∈ stream, s.chan < chmax) (c : Nat) (hc : c < chmax)
    (qi : Nat) (hqi : qi < (sub_q.getD c []).length) :
    (en_now.getD c false = true →
      (stream_thread_puts chmax en_now sub_q stream).filter
          (fun x => decide (x.1 = (c, qi))) =
        if stream.filter (fun s => s.chan == c) = [] then []
        else
          [((c, qi),
            (stream.filter (fun s => s.chan == c)).map
              (fun s => (⟨s.data, s.meta⟩ : DNxscopeStream)))]) ∧
    (en_now.getD c false = false →
      (stream_thread_puts chmax en_now sub_q stream).filter
          (fun x => decide (x.1 = (c, qi))) = []) := by
  have hkey : ∀ hen : Bool, en_now.getD c false = hen →
      (stream_thread_puts chmax en_now sub_q stream).filter
          (fun x => decide (x.1 = (c, qi))) =
        (if (stream_group chmax en_now stream).getD c [] ≠ [] then
          (List.range ((sub_q.getD c []).length)).map
            (fun j => ((c, j), (stream_group chmax en_now stream).getD c []))
        else []).filter (fun x => decide (x.1 = (c, qi))) := by
    intro hen _
    unfold stream_thread_puts
    rw [List.filter_flatMap]
    refine flatMap_single chmax c hc _ ?_
    intro j hj
    by_cases hb : (stream_group chmax en_now stream).getD j [] ≠ []
    · rw [if_pos hb, filter_key_map, if_neg (by simp [hj])]
    · rw [if_neg hb]
      rfl
  constructor
  · intro hen
    rw [hkey true hen, stream_group_getD chmax en_now stream c hc hchan,
      if_pos hen]
    by_cases hfe : stream.filter (fun s => s.chan == c) = []
    · rw [if_pos hfe, if_neg (by simp [hfe])]
      rfl
    · rw [if_neg hfe, if_pos (by simp [hfe]), filter_key_map,
        if_pos ⟨rfl, hqi⟩]
  · intro hen
    rw [hkey false hen, stream_group_getD chmax en_now stream c hc hchan,
      if_neg (by rw [hen]; simp)]
    rfl

/-- Witness for `stream_fanout`: two channels, channel 0 enabled with one
sample and one subscriber, channel 1 disabled. -/
theorem stream_fanout_witness :
    (([true, false] : List Bool).getD 0 false = true →
      (stream_thread_puts 2 [true, false] [[7], [9]]
          [{ chan := 0, dtype := 2, vdim := 1, mlen := 0,
             data := [42], meta := [] }]).filter
          (fun x => decide (x.1 = (0, 0))) =
        if ([{ chan := 0, dtype := 2, vdim := 1, mlen := 0,
               data := [42], meta := [] }] :
              List DParseStreamData).filter (fun s => s.chan == 0) = []
        then []
        else
          [((0, 0),
            (([{ chan := 0, dtype := 2, vdim := 1, mlen := 0,
                 data := [42], meta := [] }] :
                List DParseStreamData).filter (fun s => s.chan == 0)).map
              (fun s => (⟨s.data, s.meta⟩ : DNxscopeStream)))]) ∧
    (([true, false] : List Bool).getD 0 false = false →
      (stream_thread_puts 2 [true, false] [[7], [9]]
          [{ chan := 0, dtype := 2, vdim := 1, mlen := 0,
             data := [42], meta := [] }]).filter
          (fun x => decide (x.1 = (0, 0))) = []) :=
  stream_fanout 2 [true, false] [[7], [9]]
    [{ chan := 0, dtype := 2, vdim := 1, mlen := 0, data := [42], meta := [] }]
    (by decide) 0 (by decide) 0 (by decide)

/-! ## UTF-8 decoding (C8, `proto/parse.py` `frame_chinfo_decode`)

`_str.decode()` is Python's strict UTF-8 decoder (RFC 3629: no
continuation-byte errors, no overlong forms, no surrogates, codepoints up
to U+10FFFF); it is external to the repository and modelled bit-exactly
below.  `utf8Char` parses one character from the front, `utf8DecodeGo`
drives it with a fuel bounded by the input length. -/

def utf8Cont (x : Nat) : Bool :=
  decide (128 ≤ x) && decide (x < 192)

def utf8Cp2 (b b1 : Nat) : Nat :=
  (b - 192) * 64 + (b1 - 128)

def utf8Cp3 (b b1 b2 : Nat) : Nat :=
  (b - 224) * 4096 + (b1 - 128) * 64 + (b2 - 128)

def utf8Cp4 (b b1 b2 b3 : Nat) : Nat :=
  (b - 240) * 262144 + (b1 - 128) * 4096 + (b2 - 128) * 64 + (b3 - 128)

def utf8Valid3 (b b1 b2 : Nat) : Bool :=
  utf8Cont b1 && utf8Cont b2 && decide (2048 ≤ utf8Cp3 b b1 b2) &&
    !(decide (55296 ≤ utf8Cp3 b b1 b2) && decide (utf8Cp3 b b1 b2 ≤ 57343))

def utf8Valid4 (b b1 b2 b3 : Nat) : Bool :=
  utf8Cont b1 && utf8Cont b2 && utf8Cont b3 &&
    decide (65536 ≤ utf8Cp4 b b1 b2 b3) &&
    decide (utf8Cp4 b b1 b2 b3 ≤ 1114111)

def utf8Char (l : List Nat) : Option (Nat × List Nat) :=
  if l.length < 1 then none
  else if l.getD 0 0 < 128 then some (l.getD 0 0, l.drop 1)
  else if l.getD 0 0 < 194 then none
  else if l.getD 0 0 < 224 then
    if 2 ≤ l.length then
      if utf8Cont (l.getD 1 0) then
        some (utf8Cp2 (l.getD 0 0) (l.getD 1 0), l.drop 2)
      else none
    else none
  else if l.getD 0 0 < 240 then
    if 3 ≤ l.length then
      if utf8Valid3 (l.getD 0 0) (l.getD 1 0) (l.getD 2 0) then
        some (utf8Cp3 (l.getD 0 0) (l.getD 1 0) (l.getD 2 0), l.drop 3)
      else none
    else none
  else if l.getD 0 0 < 245 then
    if 4 ≤ l.length then
      if utf8Valid4 (l.getD 0 0) (l.getD 1 0) (l.getD 2 0) (l.getD 3 0) then
        some (utf8Cp4 (l.getD 0 0) (l.getD 1 0) (l.getD 2 0) (l.getD 3 0),
          l.drop 4)
      else none
    else none
  else none

def utf8DecodeGo (fuel : Nat) (l : List Nat) : Option (List Nat) :=
  match fuel with
  | 0 => if l.length = 0 then some [] else none
  | fuel + 1 =>
    if l.length = 0 then some []
    else
      match utf8Char l with
      | none => none
      | some x => (utf8DecodeGo fuel x.2).map (fun r => x.1 :: r)

def utf8Decode (l : List Nat) : Option (List Nat) :=
  utf8DecodeGo l.length l


theorem utf8Char_length (l : List Nat) (x : Nat × List Nat)
    (h : utf8Char l = some x) : x.2.length < l.length := by
  unfold utf8Char at h
  split_ifs at h <;>
    first
      | exact Option.noConfusion h
      | (have h2 := Option.some_inj.mp h
         rw [← h2]
         simp only [List.length_drop]
         omega)

theorem go_fuel_irrel (f1 : Nat) : ∀ (f2 : Nat) (l : List Nat),
    l.length ≤ f1 → l.length ≤ f2 →
    utf8DecodeGo f1 l = utf8DecodeGo f2 l := by
  induction f1 with
  | zero =>
    intro f2 l h1 h2
    have hl : l.length = 0 := by omega
    cases f2 with
    | zero => rfl
    | succ f2 =>
      rw [utf8DecodeGo, utf8DecodeGo, if_pos hl, if_pos hl]
  | succ f1 ih =>
    intro f2 l h1 h2
    by_cases hl : l.length = 0
    · cases f2 with
      | zero => rw [utf8DecodeGo, utf8DecodeGo, if_pos hl, if_pos hl]
      | succ f2 => rw [utf8DecodeGo, utf8DecodeGo, if_pos hl, if_pos hl]
    · cases f2 with
      | zero => omega
      | succ f2 =>
        rw [utf8DecodeGo, utf8DecodeGo]
        rw [if_neg hl, if_neg hl]
        cases hch : utf8Char l with
        | none => rfl
        | some x =>
          have hlen := utf8Char_length l x hch
          show (utf8DecodeGo f1 x.2).map (fun r => x.1 :: r) =
            (utf8DecodeGo f2 x.2).map (fun r => x.1 :: r)
          rw [ih f2 x.2 (by omega) (by omega)]

theorem getD_take_lt (l : List Nat) (k i d : Nat) (h : i < k) :
    (l.take k).getD i d = l.getD i d := by
  rw [List.getD_eq_getElem?_getD, List.getD_eq_getElem?_getD,
    List.getElem?_take_of_lt h]

theorem takeWhile_append_drop {α : Type} (p : α → Bool) (d : α) :
    ∀ (k : Nat) (l : List α), k ≤ l.length →
    (∀ i, i < k → p (l.getD i d) = true) →
    l.takeWhile p = l.take k ++ (l.drop k).takeWhile p := by
  intro k
  induction k with
  | zero =>
    intro l _ _
    simp
  | succ k ih =>
    intro l hk hall
    cases l with
    | nil => simp at hk
    | cons a t =>
      have hpa : p a = true := by
        have := hall 0 (by omega)
        simpa using this
      have h1 : (a :: t).takeWhile p = a :: t.takeWhile p := by
        simp [List.takeWhile_cons, hpa]
      rw [h1, List.take_succ_cons, List.drop_succ_cons, List.cons_append]
      rw [ih t (by simp at hk; omega)
        (fun i hi => by have := hall (i + 1) (by omega); simpa using this)]

theorem take_append_facts (l T : List Nat) (k : Nat) (hk : k ≤ l.length) :
    (∀ i, i < k → (l.take k ++ T).getD i 0 = l.getD i 0) ∧
    (l.take k ++ T).drop k = T ∧
    (l.take k ++ T).length = k + T.length := by
  have hlt : (l.take k).length = k := by
    rw [List.length_take]
    omega
  refine ⟨?_, List.drop_left' hlt, ?_⟩
  · intro i hi
    rw [List.getD_append _ _ _ _ (by omega), getD_take_lt _ _ _ _ hi]
  · rw [List.length_append, hlt]

theorem utf8Cont_facts (b : Nat) (h : utf8Cont b = true) :
    128 ≤ b ∧ b < 192 := by
  unfold utf8Cont at h
  simp at h
  exact h

theorem utf8Valid3_facts (b b1 b2 : Nat) (h : utf8Valid3 b b1 b2 = true) :
    (128 ≤ b1 ∧ b1 < 192) ∧ (128 ≤ b2 ∧ b2 < 192) ∧
      2048 ≤ utf8Cp3 b b1 b2 := by
  unfold utf8Valid3 utf8Cont at h
  simp at h
  omega

theorem utf8Valid4_facts (b b1 b2 b3 : Nat) (h : utf8Valid4 b b1 b2 b3 = true) :
    (128 ≤ b1 ∧ b1 < 192) ∧ (128 ≤ b2 ∧ b2 < 192) ∧ (128 ≤ b3 ∧ b3 < 192) ∧
      65536 ≤ utf8Cp4 b b1 b2 b3 := by
  unfold utf8Valid4 utf8Cont at h
  simp at h
  omega

theorem utf8Char_shift (l : List Nat) (x : Nat × List Nat)
    (hch : utf8Char l = some x) (hnz : l.getD 0 0 ≠ 0) :
    x.1 ≠ 0 ∧
    l.takeWhile (fun v => decide (v ≠ 0)) =
      l.take (l.length - x.2.length) ++
        x.2.takeWhile (fun v => decide (v ≠ 0)) ∧
    utf8Char (l.take (l.length - x.2.length) ++
        x.2.takeWhile (fun v => decide (v ≠ 0))) =
      some (x.1, x.2.takeWhile (fun v => decide (v ≠ 0))) := by
  by_cases c0 : l.length < 1
  · unfold utf8Char at hch
    rw [if_pos c0] at hch
    exact absurd hch (by simp)
  by_cases c1 : l.getD 0 0 < 128
  · -- one-byte character
    have hx : x = (l.getD 0 0, l.drop 1) := by
      unfold utf8Char at hch
      rw [if_neg c0, if_pos c1] at hch
      exact (Option.some_inj.mp hch).symm
    have hsub : l.length - x.2.length = 1 := by
      rw [hx]
      simp only [List.length_drop]
      omega
    obtain ⟨hg, hdrop, hlen⟩ :=
      take_append_facts l (x.2.takeWhile (fun v => decide (v ≠ 0))) 1
        (by omega)
    refine ⟨by rw [hx]; exact hnz, ?_, ?_⟩
    · rw [hsub]
      have := takeWhile_append_drop (fun v => decide (v ≠ 0)) 0 1 l (by omega)
        (fun i hi => by
          have hi0 : i = 0 := by omega
          subst hi0
          simpa using hnz)
      rw [this, hx]
    · rw [hsub]
      unfold utf8Char
      rw [if_neg (by omega), if_pos (by rw [hg 0 (by omega)]; exact c1)]
      rw [hg 0 (by omega)]
      have hdrop1 : (l.take 1 ++ x.2.takeWhile (fun v => decide (v ≠ 0))).drop 1
          = x.2.takeWhile (fun v => decide (v ≠ 0)) := hdrop
      rw [hdrop1, hx]
  by_cases c2 : l.getD 0 0 < 194
  · unfold utf8Char at hch
    rw [if_neg c0, if_neg c1, if_pos c2] at hch
    exact absurd hch (by simp)
  by_cases c3 : l.getD 0 0 < 224
  · -- two-byte character
    by_cases c4 : 2 ≤ l.length
    case neg =>
      unfold utf8Char at hch
      rw [if_neg c0, if_neg c1, if_neg c2, if_pos c3, if_neg c4] at hch
      exact absurd hch (by simp)
    by_cases c5 : utf8Cont (l.getD 1 0) = true
    case neg =>
      unfold utf8Char at hch
      rw [if_neg c0, if_neg c1, if_neg c2, if_pos c3, if_pos c4,
        if_neg c5] at hch
      exact absurd hch (by simp)
    have hx : x = (utf8Cp2 (l.getD 0 0) (l.getD 1 0), l.drop 2) := by
      unfold utf8Char at hch
      rw [if_neg c0, if_neg c1, if_neg c2, if_pos c3, if_pos c4,
        if_pos c5] at hch
      exact (Option.some_inj.mp hch).symm
    have hcont := utf8Cont_facts _ c5
    have hsub : l.length - x.2.length = 2 := by
      rw [hx]
      simp only [List.length_drop]
      omega
    obtain ⟨hg, hdrop, hlen⟩ :=
      take_append_facts l (x.2.takeWhile (fun v => decide (v ≠ 0))) 2 c4
    refine ⟨?_, ?_, ?_⟩
    · rw [hx]
      show utf8Cp2 (l.getD 0 0) (l.getD 1 0) ≠ 0
      unfold utf8Cp2
      omega
    · rw [hsub]
      have := takeWhile_append_drop (fun v => decide (v ≠ 0)) 0 2 l c4
        (fun i hi => by
          match i, hi with
          | 0, _ => exact decide_eq_true (by omega)
          | 1, _ => exact decide_eq_true (by omega))
      rw [this, hx]
    · rw [hsub]
      unfold utf8Char
      rw [if_neg (by omega), if_neg (by rw [hg 0 (by omega)]; exact c1),
        if_neg (by rw [hg 0 (by omega)]; exact c2),
        if_pos (by rw [hg 0 (by omega)]; exact c3),
        if_pos (by omega : 2 ≤ (l.take 2 ++ x.2.takeWhile (fun v => decide (v ≠ 0))).length),
        if_pos (by rw [hg 1 (by omega)]; exact c5)]
      rw [hg 0 (by omega), hg 1 (by omega), hdrop, hx]
  by_cases c6 : l.getD 0 0 < 240
  · -- three-byte character
    by_cases c7 : 3 ≤ l.length
    case neg =>
      unfold utf8Char at hch
      rw [if_neg c0, if_neg c1, if_neg c2, if_neg c3, if_pos c6,
        if_neg c7] at hch
      exact absurd hch (by simp)
    by_cases c8 : utf8Valid3 (l.getD 0 0) (l.getD 1 0) (l.getD 2 0) = true
    case neg =>
      unfold utf8Char at hch
      rw [if_neg c0, if_neg c1, if_neg c2, if_neg c3, if_pos c6, if_pos c7,
        if_neg c8] at hch
      exact absurd hch (by simp)
    have hx : x = (utf8Cp3 (l.getD 0 0) (l.getD 1 0) (l.getD 2 0),
        l.drop 3) := by
      unfold utf8Char at hch
      rw [if_neg c0, if_neg c1, if_neg c2, if_neg c3, if_pos c6, if_pos c7,
        if_pos c8] at hch
      exact (Option.some_inj.mp hch).symm
    have hv3 := utf8Valid3_facts _ _ _ c8
    have hsub : l.length - x.2.length = 3 := by
      rw [hx]
      simp only [List.length_drop]
      omega
    obtain ⟨hg, hdrop, hlen⟩ :=
      take_append_facts l (x.2.takeWhile (fun v => decide (v ≠ 0))) 3 c7
    refine ⟨?_, ?_, ?_⟩
    · rw [hx]
      show utf8Cp3 (l.getD 0 0) (l.getD 1 0) (l.getD 2 0) ≠ 0
      omega
    · rw [hsub]
      have := takeWhile_append_drop (fun v => decide (v ≠ 0)) 0 3 l c7
        (fun i hi => by
          match i, hi with
          | 0, _ => exact decide_eq_true (by omega)
          | 1, _ => exact decide_eq_true (by omega)
          | 2, _ => exact decide_eq_true (by omega))
      rw [this, hx]
    · rw [hsub]
      unfold utf8Char
      rw [if_neg (by omega), if_neg (by rw [hg 0 (by omega)]; exact c1),
        if_neg (by rw [hg 0 (by omega)]; exact c2),
        if_neg (by rw [hg 0 (by omega)]; exact c3),
        if_pos (by rw [hg 0 (by omega)]; exact c6),
        if_pos (by omega :
          3 ≤ (l.take 3 ++ x.2.takeWhile (fun v => decide (v ≠ 0))).length),
        if_pos (by rw [hg 0 (by omega), hg 1 (by omega), hg 2 (by omega)]
                   exact c8)]
      rw [hg 0 (by omega), hg 1 (by omega), hg 2 (by omega), hdrop, hx]
  by_cases c9 : l.getD 0 0 < 245
  · -- four-byte character
    by_cases c10 : 4 ≤ l.length
    case neg =>
      unfold utf8Char at hch
      rw [if_neg c0, if_neg c1, if_neg c2, if_neg c3, if_neg c6, if_pos c9,
        if_neg c10] at hch
      exact absurd hch (by simp)
    by_cases c11 : utf8Valid4 (l.getD 0 0) (l.getD 1 0) (l.getD 2 0)
        (l.getD 3 0) = true
    case neg =>
      unfold utf8Char at hch
      rw [if_neg c0, if_neg c1, if_neg c2, if_neg c3, if_neg c6, if_pos c9,
        if_pos c10, if_neg c11] at hch
      exact absurd hch (by simp)
    have hx : x = (utf8Cp4 (l.getD 0 0) (l.getD 1 0) (l.getD 2 0)
        (l.getD 3 0), l.drop 4) := by
      unfold utf8Char at hch
      rw [if_neg c0, if_neg c1, if_neg c2, if_neg c3, if_neg c6, if_pos c9,
        if_pos c10, if_pos c11] at hch
      exact (Option.some_inj.mp hch).symm
    have hv4 := utf8Valid4_facts _ _ _ _ c11
    have hsub : l.length - x.2.length = 4 := by
      rw [hx]
      simp only [List.length_drop]
      omega
    obtain ⟨hg, hdrop, hlen⟩ :=
      take_append_facts l (x.2.takeWhile (fun v => decide (v ≠ 0))) 4 c10
    refine ⟨?_, ?_, ?_⟩
    · rw [hx]
      show utf8Cp4 (l.getD 0 0) (l.getD 1 0) (l.getD 2 0) (l.getD 3 0) ≠ 0
      omega
    · rw [hsub]
      have := takeWhile_append_drop (fun v => decide (v ≠ 0)) 0 4 l c10
        (fun i hi => by
          match i, hi with
          | 0, _ => exact decide_eq_true (by omega)
          | 1, _ => exact decide_eq_true (by omega)
          | 2, _ => exact decide_eq_true (by omega)
          | 3, _ => exact decide_eq_true (by omega))
      rw [this, hx]
    · rw [hsub]
      unfold utf8Char
      rw [if_neg (by omega), if_neg (by rw [hg 0 (by omega)]; exact c1),
        if_neg (by rw [hg 0 (by omega)]; exact c2),
        if_neg (by rw [hg 0 (by omega)]; exact c3),
        if_neg (by rw [hg 0 (by omega)]; exact c6),
        if_pos (by rw [hg 0 (by omega)]; exact c9),
        if_pos (by omega :
          4 ≤ (l.take 4 ++ x.2.takeWhile (fun v => decide (v ≠ 0))).length),
        if_pos (by rw [hg 0 (by omega), hg 1 (by omega), hg 2 (by omega),
                     hg 3 (by omega)]
                   exact c11)]
      rw [hg 0 (by omega), hg 1 (by omega), hg 2 (by omega), hg 3 (by omega),
        hdrop, hx]
  · unfold utf8Char at hch
    rw [if_neg c0, if_neg c1, if_neg c2, if_neg c3, if_neg c6,
      if_neg c9] at hch
    exact absurd hch (by simp)

theorem go_takeWhile (fuel : Nat) : ∀ (l : List Nat) (cps : List Nat),
    l.length ≤ fuel → utf8DecodeGo fuel l = some cps →
    utf8DecodeGo fuel (l.takeWhile (fun v => decide (v ≠ 0))) =
      some (cps.takeWhile (fun v => decide (v ≠ 0))) := by
  induction fuel with
  | zero =>
    intro l cps h1 h
    have hnil : l = [] := List.eq_nil_of_length_eq_zero (by omega)
    subst hnil
    have hcps : cps = [] := by simpa [utf8DecodeGo] using h
    subst hcps
    simp [utf8DecodeGo]
  | succ fuel ih =>
    intro l cps hlen h
    by_cases hl : l.length = 0
    · have hnil : l = [] := List.eq_nil_of_length_eq_zero hl
      subst hnil
      have hcps : cps = [] := by simpa [utf8DecodeGo] using h
      subst hcps
      simp [utf8DecodeGo]
    · rw [utf8DecodeGo, if_neg hl] at h
      cases hch : utf8Char l with
      | none =>
        rw [hch] at h
        exact absurd h (by simp)
      | some x =>
        rw [hch] at h
        have h2 : (utf8DecodeGo fuel x.2).map (fun r => x.1 :: r) =
            some cps := h
        cases hgo : utf8DecodeGo fuel x.2 with
        | none =>
          rw [hgo] at h2
          exact absurd h2 (by simp)
        | some r =>
          rw [hgo] at h2
          have hcps : cps = x.1 :: r := (Option.some_inj.mp h2).symm
          subst hcps
          have hxlen := utf8Char_length l x hch
          by_cases hb0 : l.getD 0 0 = 0
          · have hx1 : x.1 = 0 := by
              unfold utf8Char at hch
              rw [if_neg (by omega), if_pos (by omega)] at hch
              have h3 := Option.some_inj.mp hch
              rw [← h3]
              exact hb0
            cases l with
            | nil => simp at hl
            | cons a t =>
              have ha : a = 0 := by simpa using hb0
              subst ha
              have ht : ((0 : Nat) :: t).takeWhile
                  (fun v => decide (v ≠ 0)) = [] := by simp
              rw [ht, hx1]
              simp [utf8DecodeGo]
          · obtain ⟨hx1, htw, hcw⟩ := utf8Char_shift l x hch hb0
            rw [htw]
            rw [utf8DecodeGo,
              if_neg (by
                simp only [List.length_append, List.length_take]
                omega)]
            rw [hcw]
            show (utf8DecodeGo fuel
                (x.2.takeWhile (fun v => decide (v ≠ 0)))).map
                (fun r => x.1 :: r) = _
            rw [ih x.2 r (by omega) hgo]
            have h4 : (x.1 :: r).takeWhile (fun v => decide (v ≠ 0)) =
                x.1 :: r.takeWhile (fun v => decide (v ≠ 0)) := by
              simp [List.takeWhile_cons, hx1]
            rw [h4]
            rfl

theorem utf8Decode_takeWhile (l : List Nat) (cps : List Nat)
    (h : utf8Decode l = some cps) :
    utf8Decode (l.takeWhile (fun v => decide (v ≠ 0))) =
      some (cps.takeWhile (fun v => decide (v ≠ 0))) := by
  unfold utf8Decode at h ⊢
  have h1 : (l.takeWhile (fun v => decide (v ≠ 0))).length ≤ l.length :=
    List.Sublist.length_le (List.takeWhile_sublist _)
  rw [go_fuel_irrel (l.takeWhile (fun v => decide (v ≠ 0))).length l.length
    (l.takeWhile (fun v => decide (v ≠ 0))) (by omega) (by omega)]
  exact go_takeWhile l.length l cps (by omega) h

/-- The name expression of `Parser.frame_chinfo_decode`:
`"" if not _str else _str.decode().split("\x00")[0]` — decode the whole
name field as strict UTF-8 (raising `UnicodeDecodeError` on invalid bytes
anywhere in the field), then truncate at the first NUL character. -/
def chinfoName (nb : List Nat) : Option (List Nat) :=
  if nb = [] then some []
  else (utf8Decode nb).map (fun s => s.takeWhile (fun v => decide (v ≠ 0)))

/-- `Parser.frame_chinfo_decode`: `None` and non-CHINFO frames give
`None`; `struct.unpack(f"BBBBB{nlen}s", frame.data)` raises
`struct.error` for payloads shorter than 5 bytes; the name is decoded by
`chinfoName` and the channel record mirrors the `DeviceChannel`
construction (with `bool(en)`). -/
def frame_chinfo_decode (frame : Option DParseFrame) (chan : Nat) :
    Except PyError (Option DDeviceChannelData) :=
  match frame with
  | none => .ok none
  | some f =>
    if f.fid ≠ idCHINFO then .ok none
    else if f.data.length < 5 then .error .structError
    else
      match chinfoName (f.data.drop 5) with
      | none => .error .unicodeDecodeError
      | some nm =>
        .ok (some
          { chan := chan, typ := f.data.getD 1 0, vdim := f.data.getD 2 0,
            en := f.data.getD 0 0 != 0, div := f.data.getD 3 0,
            mlen := f.data.getD 4 0, name := nm })

/-- Modelled from the spec: "Name decoding stops at first NUL and decodes
bytes before it as UTF-8" — decode only the bytes before the first NUL. -/
def specNameDecode (nb : List Nat) : Option (List Nat) :=
  utf8Decode (nb.takeWhile (fun v => decide (v ≠ 0)))

/-- C8 counterexample: two CHINFO payloads that agree up to and including
the first NUL of the name field but differ after it decode differently —
the byte `0xFF` after the NUL makes the decoder raise
`UnicodeDecodeError`, so bytes after the first NUL do affect the
result. -/
theorem chinfo_name_after_nul_matters :
    frame_chinfo_decode
        (some { fid := idCHINFO, data := [1, 2, 1, 0, 0, 0] }) 0 ≠
      frame_chinfo_decode
        (some { fid := idCHINFO, data := [1, 2, 1, 0, 0, 0, 255] }) 0 ∧
    frame_chinfo_decode
        (some { fid := idCHINFO, data := [1, 2, 1, 0, 0, 0, 255] }) 0 =
      .error .unicodeDecodeError := by
  constructor
  · intro h
    exact nomatch h
  · rfl

/-- C8 amended: the decoder decodes the whole name field and then
truncates at the first NUL, so whenever the entire name field is valid
UTF-8 the decoded name equals the UTF-8 decode of the bytes before the
first NUL (bytes after the first NUL then have no effect, and an empty
name field decodes to the empty string); invalid UTF-8 after the first
NUL, however, raises instead of being ignored. -/
theorem chinfo_name_spec (f : DParseFrame) (c : Nat) (hid : f.fid = idCHINFO)
    (hlen : 5 ≤ f.data.length) (cps : List Nat)
    (hvalid : utf8Decode (f.data.drop 5) = some cps) :
    frame_chinfo_decode (some f) c =
      .ok (some
        { chan := c, typ := f.data.getD 1 0, vdim := f.data.getD 2 0,
          en := f.data.getD 0 0 != 0, div := f.data.getD 3 0,
          mlen := f.data.getD 4 0,
          name := cps.takeWhile (fun v => decide (v ≠ 0)) }) ∧
    specNameDecode (f.data.drop 5) =
      some (cps.takeWhile (fun v => decide (v ≠ 0))) := by
  have hname : chinfoName (f.data.drop 5) =
      some (cps.takeWhile (fun v => decide (v ≠ 0))) := by
    unfold chinfoName
    by_cases hnb : f.data.drop 5 = []
    · rw [if_pos hnb]
      rw [hnb] at hvalid
      have h2 : (some [] : Option (List Nat)) = some cps := hvalid
      have hc : cps = [] := (Option.some_inj.mp h2).symm
      subst hc
      rfl
    · rw [if_neg hnb, hvalid]
      rfl
  constructor
  · show (if f.fid ≠ idCHINFO then
        (Except.ok none : Except PyError (Option DDeviceChannelData))
      else if f.data.length < 5 then .error .structError
      else
        match chinfoName (f.data.drop 5) with
        | none => .error .unicodeDecodeError
        | some nm =>
          .ok (some
            { chan := c, typ := f.data.getD 1 0, vdim := f.data.getD 2 0,
              en := f.data.getD 0 0 != 0, div := f.data.getD 3 0,
              mlen := f.data.getD 4 0, name := nm })) = _
    rw [if_neg (by simp [hid]), if_neg (by omega), hname]
  · exact utf8Decode_takeWhile _ cps hvalid

/-- Witness for `chinfo_name_spec`: the scenario payload
`01 0A 01 00 00 'c' 'h' '0'`. -/
theorem chinfo_name_spec_witness :
    frame_chinfo_decode
        (some { fid := idCHINFO, data := [1, 10, 1, 0, 0, 99, 104, 48] }) 0 =
      .ok (some
        { chan := 0,
          typ := ([1, 10, 1, 0, 0, 99, 104, 48] : List Nat).getD 1 0,
          vdim := ([1, 10, 1, 0, 0, 99, 104, 48] : List Nat).getD 2 0,
          en := ([1, 10, 1, 0, 0, 99, 104, 48] : List Nat).getD 0 0 != 0,
          div := ([1, 10, 1, 0, 0, 99, 104, 48] : List Nat).getD 3 0,
          mlen := ([1, 10, 1, 0, 0, 99, 104, 48] : List Nat).getD 4 0,
          name := ([99, 104, 48] : List Nat).takeWhile
            (fun v => decide (v ≠ 0)) }) ∧
    specNameDecode (([1, 10, 1, 0, 0, 99, 104, 48] : List Nat).drop 5) =
      some (([99, 104, 48] : List Nat).takeWhile (fun v => decide (v ≠ 0))) :=
  chinfo_name_spec { fid := idCHINFO, data := [1, 10, 1, 0, 0, 99, 104, 48] }
    0 rfl (by decide) [99, 104, 48] (by decide)

/-! ## Stream frame decoding (C9, `proto/parse.py` `frame_stream_decode`)

Sample values (`_stream_data_get` scaling, CHAR string decoding) stay as
the raw little-endian byte slices: the claims depend on the index
arithmetic and error branches, not on the value semantics. -/

/-- The `slen` column of the built-in `dsfmt_get` table in
`proto/iparse.py` (no user types registered); a missing `dtype` raises
`KeyError`. -/
def dsfmt_slen (dtype : Nat) : Option Nat :=
  match dtype with
  | 1 => some 0
  | 2 => some 1
  | 3 => some 1
  | 4 => some 2
  | 5 => some 2
  | 6 => some 4
  | 7 => some 4
  | 8 => some 8
  | 9 => some 8
  | 10 => some 4
  | 11 => some 8
  | 12 => some 2
  | 13 => some 2
  | 14 => some 4
  | 15 => some 4
  | 16 => some 8
  | 17 => some 8
  | 18 => some 1
  | 19 => some 1
  | _ => none

/-- `DParseStream` from `proto/iparse.py`. -/
structure DParseStream where
  flags : Nat
  samples : List DParseStreamData
  deriving DecidableEq, Repr

/-- The `while i < len(frame.data)` loop of `frame_stream_decode`:
per sample, read the channel-id byte (`assert chan` raises
`AssertionError` when `channel_get` returns `None`), look up the decode
format (`KeyError` on unknown dtype), then `struct.unpack` the
`slen * vdim` data bytes and the `mlen` metadata bytes (`struct.error`
when the slice is shorter than the format, including the `vdim == 0`
with nonzero item size case).  Each iteration consumes at least one
byte, so fuel `= len(frame.data)` never runs out. -/
def stream_decode_go (dev : Device) (bytes : List Nat) (fuel i : Nat)
    (acc : List DParseStreamData) : Except PyError (List DParseStreamData) :=
  match fuel with
  | 0 => .error .structError
  | fuel + 1 =>
    if i < bytes.length then
      match channel_get dev (bytes.getD i 0 : Int) with
      | none => .error .assertionError
      | some ch =>
        match dsfmt_slen ch.dtype with
        | none => .error .keyError
        | some slen =>
          if ch.vdim = 0 ∧ slen ≠ 0 then .error .structError
          else if bytes.length < i + 1 + slen * ch.vdim then
            .error .structError
          else if bytes.length < i + 1 + slen * ch.vdim + ch.mlen then
            .error .structError
          else
            stream_decode_go dev bytes fuel (i + 1 + slen * ch.vdim + ch.mlen)
              (acc ++
                [{ chan := ch.chan, dtype := ch.dtype, vdim := ch.vdim,
                   mlen := ch.mlen,
                   data := (bytes.drop (i + 1)).take (slen * ch.vdim),
                   meta := (bytes.drop (i + 1 + slen * ch.vdim)).take
                     ch.mlen }])
    else .ok acc

/-- `Parser.frame_stream_decode`: `None` for a missing frame, a
non-STREAM id, or an empty payload; otherwise the flags byte plus the
decoded sample list. -/
def frame_stream_decode (frame : Option DParseFrame) (dev : Device) :
    Except PyError (Option DParseStream) :=
  match frame with
  | none => .ok none
  | some f =>
    if f.fid ≠ idSTREAM then .ok none
    else if f.data = [] then .ok none
    else
      match stream_decode_go dev f.data f.data.length 1 [] with
      | .error e => .error e
      | .ok samples =>
        .ok (some { flags := f.data.getD 0 0, samples := samples })

/-- C9: a STREAM frame carrying a sample whose channel-id byte (1) is at
least `chmax` (1) makes `channel_get` return `none` and the `assert chan`
fire: `frame_stream_decode` raises `AssertionError` at its public
interface instead of returning a decoded stream or any non-exception
result. -/
theorem stream_unknown_channel_asserts :
    channel_get devA 1 = none ∧
    frame_stream_decode (some { fid := idSTREAM, data := [0, 1] }) devA =
      .error .assertionError ∧
    ∀ s : Option DParseStream,
      frame_stream_decode (some { fid := idSTREAM, data := [0, 1] }) devA ≠
        .ok s := by
  refine ⟨rfl, rfl, ?_⟩
  intro s h
  exact nomatch h

end Nxslib
